import Mathlib

/-!
# Verification of the Reddit-to-Twitter curation pipeline

Shallow embedding of the `x-agent` repository (Python) in Lean 4.

Modelling conventions:
* Python `str` is modelled by `String`; indexing/slicing/length act on the
  code-point list `String.data`, matching Python semantics (`pyLen`,
  `pySlice`, `pyLower`, `pyStrip`, `pyContains`).
* Python `float` is modelled by `Rat` (the cost arithmetic in the source is
  plain `+`/`*`/`/`; we study its algebraic content exactly).
* Python dicts used as records become structures; an absent-or-empty dict
  (Python truthiness `if usage:`) becomes `Option`.
* Exceptions become `Except String`; a function that catches internally
  returns a plain value.
* External network/library calls (HTTP, feed parsing, the language-model
  client, `hashlib`, `html.unescape`, `re.sub`) are abstracted as oracle
  function parameters; everything the repository itself computes is
  translated directly from the source.
-/

set_option autoImplicit false

namespace XAgent

/-! ## Python string primitives -/

/-- Python `len(s)` (counts code points). -/
def pyLen (s : String) : Nat := s.data.length

/-- Python `s[:n]` (slice of the first `n` code points). -/
def pySlice (s : String) (n : Nat) : String := ⟨s.data.take n⟩

/-- Python `s.lower()` restricted to ASCII (all inputs of interest are ASCII). -/
def pyLower (s : String) : String := ⟨s.data.map Char.toLower⟩

/-- `leadsWith pat l` : `pat` is an initial segment of `l`. -/
def leadsWith : List Char → List Char → Bool
  | [], _ => true
  | _ :: _, [] => false
  | a :: as, b :: bs => a == b && leadsWith as bs

/-- `hasSub hay pat` : `pat` occurs contiguously inside `hay`. -/
def hasSub (hay pat : List Char) : Bool :=
  match hay with
  | [] => pat.isEmpty
  | _ :: t => leadsWith pat hay || hasSub t pat

/-- Python `needle in haystack` for strings. -/
def pyContains (haystack needle : String) : Bool := hasSub haystack.data needle.data

/-- Python `str` whitespace (the characters stripped by `str.strip()`). -/
def isPySpace (c : Char) : Bool :=
  c == ' ' || c == '\t' || c == '\n' || c == '\r' || c == '\x0b' || c == '\x0c'

/-- Python `s.strip()`. -/
def pyStrip (s : String) : String :=
  ⟨((s.data.dropWhile isPySpace).reverse.dropWhile isPySpace).reverse⟩

/-- Helper for `pySplitComma`: split a code-point list at every comma,
collecting the current piece in reverse. -/
def splitCommaCh : List Char → List Char → List String
  | [], acc => [⟨acc.reverse⟩]
  | c :: rest, acc =>
    if c == ',' then (⟨acc.reverse⟩ : String) :: splitCommaCh rest []
    else splitCommaCh rest (c :: acc)

/-- Python `s.split(",")` (no collapsing; `"".split(",") = [""]`,
`"a,,b".split(",") = ["a","","b"]`). -/
def pySplitComma (s : String) : List String := splitCommaCh s.data []

/-! ## Shared data model (`src/models.py`) -/

/-- `models.Post` — a Reddit post record. -/
structure Post where
  id : String
  title : String
  link : String
  author : String
  subreddit : String
  updated : String
  rss_summary : String
  full_content : Option String := none
  deriving DecidableEq

/-- `models.EditorialDecision` — judgment outcome.  `action` is a plain
string in the source (`"accept" | "revise" | "abort"`). -/
structure EditorialDecision where
  action : String
  confidence : Rat
  weakness : String
  suggested_revision : String
  deriving DecidableEq

/-- One entry of the generator's `selected_threads` list. -/
structure GThread where
  post_id : String
  post_title : String
  tweets : List String
  reasoning : String
  deriving DecidableEq

/-- The generator's result dict `{"selected_threads": [...]}`. -/
structure GenOutput where
  selected_threads : List GThread
  deriving DecidableEq

/-- One entry of the ranking response: `{"id": ..., "score": ...}`. -/
structure RankItem where
  id : String
  score : Rat
  deriving DecidableEq

/-- A usage record returned by one language-model call.  `cost = none`
models a dict without a `"cost"` key (read back via `.get("cost", 0.0)`). -/
structure UsageData where
  model : String
  prompt_tokens : Nat
  completion_tokens : Nat
  total_tokens : Nat
  cost : Option Rat := none
  deriving DecidableEq

/-! ## Ranking filter (`src/services/ai_filter.py`) -/

/-- Truncation used in `AIFilter.filter`'s payload construction:
`(s[:limit-3] + "...") if len(s) > limit else s`. -/
def truncateField (s : String) (limit : Nat) : String :=
  if pyLen s > limit then pySlice s (limit - 3) ++ "..." else s

/-- One entry of the minimal ranking payload. -/
structure PayloadItem where
  id : String
  title : String
  rss_summary : String
  subreddit : String
  deriving DecidableEq

/-- `AIFilter.filter`'s payload list (title/summary truncated). -/
def buildPayload (posts : List Post) (title_limit summary_limit : Nat) :
    List PayloadItem :=
  posts.map fun p =>
    { id := p.id
      title := truncateField p.title title_limit
      rss_summary := truncateField p.rss_summary summary_limit
      subreddit := p.subreddit }

/-- Result of the chat-completion request made by `AIFilter.filter`, after
JSON decoding: the `ranked_posts` list plus token counts.  An `Except.error`
covers any request or decode failure (the `except` branch). -/
structure RankResponse where
  ranked_posts : List RankItem
  prompt_tokens : Nat
  completion_tokens : Nat
  total_tokens : Nat
  deriving DecidableEq

/-- The two possible shapes of `AIFilter.filter`'s return value: a bare
list (the early-return on empty input) or a `(ranked, usage)` pair. -/
inductive FilterReturn where
  | single (ranked : List RankItem)
  | tuple (ranked : List RankItem) (usage : Option UsageData)
  deriving DecidableEq

/-- `AIFilter.filter`.  The oracle maps the payload to the decoded response
of the single completion request; the returned list also logs each payload
actually sent, so "no request issued" is expressible.  Cost formula from the
source: `prompt * 0.15/1e6 + completion * 0.60/1e6`. -/
def AIFilter.filter (model : String)
    (complete : List PayloadItem → Except String RankResponse)
    (posts : List Post) (title_limit : Nat := 300) (summary_limit : Nat := 1500) :
    FilterReturn × List (List PayloadItem) :=
  if posts.isEmpty then (.single [], [])
  else
    let payload := buildPayload posts title_limit summary_limit
    match complete payload with
    | .ok resp =>
        let cost : Rat :=
          resp.prompt_tokens * ((0.15 : Rat) / 1000000) +
          resp.completion_tokens * ((0.60 : Rat) / 1000000)
        let usage : UsageData :=
          { model := model
            prompt_tokens := resp.prompt_tokens
            completion_tokens := resp.completion_tokens
            total_tokens := resp.total_tokens
            cost := some cost }
        (.tuple (resp.ranked_posts.take 15) (some usage), [payload])
    | .error _ => (.tuple [] none, [payload])

/-! ## Aggregation provider (`src/services/reddit_provider.py`) -/

/-- One parsed feed entry as seen by `fetch_subreddit_posts`'s loop;
`none` fields model keys absent from the feedparser dict (read back through
`entry.get(key, default)`). -/
structure Entry where
  author : Option String := none
  title : Option String := none
  link : Option String := none
  updated : Option String := none
  summary : Option String := none
  deriving DecidableEq

/-- The `automoderator`/`moderator` author check (case-insensitive,
substring). -/
def isModAuthor (author : String) : Bool :=
  pyContains (pyLower author) "automoderator" || pyContains (pyLower author) "moderator"

/-- Library calls made while normalizing one entry, abstracted:
`subTags` is `re.sub('<[^<]+?>', '', ·)`, `unescape` is `html.unescape`,
`md5hex` is `hashlib.md5(·.encode()).hexdigest()`. -/
structure FeedLibs where
  subTags : String → String
  unescape : String → String
  md5hex : String → String

/-- Builds the `Post` appended for one accepted entry (the body of the
loop in `fetch_subreddit_posts` after the moderator check). -/
def mkPost (L : FeedLibs) (subreddit : String) (e : Entry) : Post :=
  let author := e.author.getD "unknown"
  let summary_html := e.summary.getD ""
  let clean_text := L.subTags summary_html
  let rss_content := pyStrip (L.unescape clean_text)
  let link := e.link.getD ""
  let post_id := pySlice (L.md5hex link) 10
  { id := post_id
    title := e.title.getD "No Title"
    link := link
    author := author
    subreddit := subreddit
    updated := e.updated.getD "unknown"
    rss_summary := rss_content }

/-- The collection loop of `fetch_subreddit_posts`: `count` accepted so
far, break once `count >= limit`, moderator-authored entries skipped
without incrementing `count`. -/
def collectPosts (L : FeedLibs) (subreddit : String) (limit : Nat) :
    List Entry → Nat → List Post
  | [], _ => []
  | e :: rest, count =>
    if count ≥ limit then []
    else if isModAuthor (e.author.getD "unknown") then
      collectPosts L subreddit limit rest count
    else
      mkPost L subreddit e :: collectPosts L subreddit limit rest (count + 1)

/-- The four feed-endpoint templates (`RedditProvider._url_map`), with the
`hot` fallback for an unknown variant. -/
def urlFor (filter_type subreddit : String) : String :=
  if filter_type == "new" then "https://www.reddit.com/r/" ++ subreddit ++ "/new/.rss"
  else if filter_type == "top" then "https://www.reddit.com/r/" ++ subreddit ++ "/top/.rss?t=day"
  else if filter_type == "rising" then "https://www.reddit.com/r/" ++ subreddit ++ "/rising/.rss"
  else "https://www.reddit.com/r/" ++ subreddit ++ "/.rss"

/-- `RedditProvider.fetch_subreddit_posts`.  The HTTP+feedparser part is an
oracle from the URL to either the parsed entry list (a 200 response) or a
failure (non-200 status, network or parsing fault) — every failure branch
of the source returns an empty list for this one community. -/
def fetch_subreddit_posts (L : FeedLibs)
    (http : String → Except String (List Entry))
    (subreddit : String) (filter_type : String := "hot") (limit : Nat := 5) :
    List Post :=
  match http (urlFor filter_type subreddit) with
  | .error _ => []
  | .ok entries => collectPosts L subreddit limit entries 0

/-! ## Usage ledger (`ContentCurator._update_usage` in `src/core/curator.py`) -/

/-- One per-model bucket `{"prompt": _, "completion": _, "total": _, "cost": _}`. -/
structure ModelStats where
  prompt : Nat
  completion : Nat
  total : Nat
  cost : Rat
  deriving DecidableEq

/-- The fresh bucket inserted for an unseen model. -/
def freshStats : ModelStats := ⟨0, 0, 0, 0⟩

/-- The `usage_stats` dict: per-model buckets (insertion-ordered, unique
keys) plus the reserved `"total_cost"` entry, modelled as a separate field. -/
structure UsageStats where
  models : List (String × ModelStats)
  total_cost : Rat
  deriving DecidableEq

/-- Dict lookup for a model bucket. -/
def getStats (s : UsageStats) (m : String) : Option ModelStats :=
  (s.models.find? (fun p => p.1 == m)).map (·.2)

/-- Dict write: replace the first binding of `m`, or append a new one. -/
def setStats : List (String × ModelStats) → String → ModelStats → List (String × ModelStats)
  | [], m, st => [(m, st)]
  | (k, v) :: rest, m, st =>
    if k == m then (k, st) :: rest else (k, v) :: setStats rest m st

/-- The fallback-priced effective cost of one usage record:
`cost = usage_data.get("cost", 0.0); if not cost: <substring pricing>`.
Note Python truthiness makes a supplied `0.0` take the fallback path too. -/
def effCost (u : UsageData) : Rat :=
  let c := u.cost.getD 0
  if c ≠ 0 then c
  else if pyContains u.model "gpt-5-mini" then
    u.prompt_tokens * ((0.15 : Rat) / 1000000) + u.completion_tokens * ((0.6 : Rat) / 1000000)
  else if pyContains u.model "gpt-5.2" then
    u.prompt_tokens * ((10.0 : Rat) / 1000000) + u.completion_tokens * ((30.0 : Rat) / 1000000)
  else 0

/-- `ContentCurator._update_usage`. -/
def updateUsage (s : UsageStats) (u : UsageData) : UsageStats :=
  let cur := (getStats s u.model).getD freshStats
  let cost := effCost u
  let cur' : ModelStats :=
    { prompt := cur.prompt + u.prompt_tokens
      completion := cur.completion + u.completion_tokens
      total := cur.total + u.total_tokens
      cost := cur.cost + cost }
  { models := setStats s.models u.model cur'
    total_cost := s.total_cost + cost }

/-- Merge an optional usage record: `if usage: self._update_usage(...)`. -/
def updateUsageOpt (s : UsageStats) : Option UsageData → UsageStats
  | none => s
  | some u => updateUsage s u

/-- The ledger initialized at the top of `run_pipeline`. -/
def initStats : UsageStats :=
  { models := [("gpt-5-mini", freshStats), ("gpt-5.2", freshStats)]
    total_cost := 0 }

/-- Sum of the per-model accumulated costs. -/
def modelCostSum (l : List (String × ModelStats)) : Rat :=
  l.foldr (fun p a => p.2.cost + a) 0

/-! ## Notifier (`src/services/telegram_notifier.py`) -/

/-- The two environment credentials read in `TelegramNotifier.__init__`. -/
structure TgEnv where
  bot_token : Option String := none
  chat_id : Option String := none

/-- Python truthiness of an optional env string (`not self.bot_token`). -/
def truthyStr : Option String → Bool
  | none => false
  | some s => s != ""

/-- Externally observable events of one run. -/
inductive Event where
  | fetched (subreddit : String)
  | enriched (post_id : String)
  | generated (post_id : String)
  | judged (post_id : String)
  | rejectionSent (post_title : String)
  | sendAttempt (text : String)
  deriving DecidableEq

/-- The message composed by `send_thread`: header plus one fenced block per
tweet, joined by blank lines, truncated at the 4000-character cap. -/
def buildThreadMessage (t : GThread) : String :=
  let header := "📖 *THREAD FOR: " ++ t.post_title ++ "*\n" ++ "--------------------" ++ "\n"
  let message_chunks := t.tweets.enum.map fun p =>
    "Tweet " ++ toString (p.1 + 1) ++ ":\n```\n" ++ p.2 ++ "\n```"
  let full_message := header ++ String.intercalate "\n\n" message_chunks
  if pyLen full_message > 4000 then pySlice full_message 3997 ++ "..." else full_message

/-- `TelegramNotifier.send_thread`.  The oracle `api` is the
`requests.post` + `raise_for_status` pair on the composed text; its error is
NOT caught here, so it surfaces in the `Except`.  The event list records the
delivery attempts actually made. -/
def send_thread (env : TgEnv) (api : String → Except String Unit) (t : GThread) :
    Except String Bool × List Event :=
  if !truthyStr env.bot_token || !truthyStr env.chat_id then (.ok false, [])
  else if t.tweets.isEmpty then (.ok false, [])
  else
    let msg := buildThreadMessage t
    match api msg with
    | .ok _ => (.ok true, [.sendAttempt msg])
    | .error e => (.error e, [.sendAttempt msg])

/-- `TelegramNotifier.send_rejection_notice`: best-effort, catches the
delivery failure and returns `false`. -/
def send_rejection_notice (env : TgEnv) (api : String → Except String Unit)
    (title reason : String) : Bool :=
  if !truthyStr env.bot_token || !truthyStr env.chat_id then false
  else
    match api ("🚫 *ABORTED THREAD*\n\n*Topic*: " ++ title ++ "\n*Reason*: " ++ reason) with
    | .ok _ => true
    | .error _ => false

/-- `TelegramNotifier.notify_all`: sequential sends, nothing caught — the
first `send_thread` exception stops the loop and propagates. -/
def notify_all (env : TgEnv) (api : String → Except String Unit) :
    List GThread → Except String Unit × List Event
  | [] => (.ok (), [])
  | t :: ts =>
    match send_thread env api t with
    | (.error e, ev) => (.error e, ev)
    | (.ok _, ev) =>
      let (r, ev2) := notify_all env api ts
      (r, ev ++ ev2)

/-! ## Orchestrator (`src/core/curator.py`) -/

/-- The service boundary of `ContentCurator`: each field is one external
call already embedded at its own component (the orchestrator quantifies over
their outcomes). -/
structure Oracles where
  fetchFn : String → Nat → List Post
  filterFn : List Post → List RankItem × Option UsageData
  extractFn : Post → String
  genFn : List Post → GenOutput × Option UsageData
  judgeFn : String → EditorialDecision × Option UsageData
  env : TgEnv
  tgSend : String → Except String Unit

/-- `ContentExtractor.enrich`: attach `extract`'s text as `full_content`. -/
def enrichP (O : Oracles) (p : Post) : Post :=
  { p with full_content := some (O.extractFn p) }

/-- `RedditProvider.fetch_all`: concatenation across communities (the
inter-call `time.sleep` has no effect on values and is not modelled). -/
def fetchAllT (O : Oracles) (ppd : Nat) : List String → List Post × List Event
  | [] => ([], [])
  | s :: rest =>
    let r := fetchAllT O ppd rest
    (O.fetchFn s ppd ++ r.1, .fetched s :: r.2)

/-- State of the progressive per-candidate loop in `run_pipeline`. -/
structure LoopState where
  approved : List GThread
  bestThread : Option GThread
  bestScore : Rat
  usage : UsageStats
  trace : List Event

/-- The per-candidate loop (`for i, rank_item in enumerate(ranked_data[:10])`)
including `_process_single_thread`: resolve the post by id, enrich,
generate, judge; accept appends and breaks at quota 3; a rejection sends a
notice and updates the best-rejected fallback on strict score improvement. -/
def processCandidates (O : Oracles) (allPosts : List Post) :
    List RankItem → LoopState → LoopState
  | [], s => s
  | item :: rest, s =>
    match allPosts.find? (fun p => p.id == item.id) with
    | none => processCandidates O allPosts rest s
    | some post =>
      let enriched_post := enrichP O post
      let gr := O.genFn [enriched_post]
      let s1 : LoopState :=
        { s with usage := updateUsageOpt s.usage gr.2
                 trace := s.trace ++ [.enriched post.id, .generated post.id] }
      match gr.1.selected_threads with
      | [] => processCandidates O allPosts rest s1
      | current_thread :: _ =>
        let thread_text := String.intercalate "\n\n" current_thread.tweets
        let jr := O.judgeFn thread_text
        let decision := jr.1
        let s2 : LoopState :=
          { s1 with usage := updateUsageOpt s1.usage jr.2
                    trace := s1.trace ++ [.judged post.id] }
        if decision.action == "accept" then
          let approved' := s2.approved ++ [current_thread]
          if approved'.length ≥ 3 then { s2 with approved := approved' }
          else processCandidates O allPosts rest { s2 with approved := approved' }
        else
          let _ := send_rejection_notice O.env O.tgSend
            current_thread.post_title decision.weakness
          let s3 : LoopState :=
            { s2 with trace := s2.trace ++ [.rejectionSent current_thread.post_title] }
          if item.score > s3.bestScore then
            processCandidates O allPosts rest
              { s3 with bestScore := item.score, bestThread := some current_thread }
          else processCandidates O allPosts rest s3

/-- `run_pipeline`'s return dict. -/
structure PipeResult where
  posts : List Post
  selected_threads : List GThread
  usage : UsageStats

/-- The two exception classes escaping `run_pipeline`/`main`. -/
inductive Err where
  | valueError (msg : String)
  | runtimeError (msg : String)
  | httpError (msg : String)
  deriving DecidableEq

/-- Outcome of a whole run: the returned dict or the escaping exception,
plus the observable event trace. -/
structure RunResult where
  res : Except Err PipeResult
  trace : List Event

/-- The `RuntimeError` text at the Stage-1 fatal check. -/
def aggFailMsg : String :=
  "[ORCHESTRATOR] Stage 1 Failed: No posts aggregated from subreddits."

/-- The fresh loop state built between Stage 2 and Stage 3 of `run_pipeline`
(after the ranking usage merge). -/
def initLoopState (us : UsageStats) : LoopState :=
  { approved := [], bestThread := none, bestScore := -1, usage := us, trace := [] }

/-- `ContentCurator.run_pipeline`. -/
def runPipeline (O : Oracles) (subreddits : List String) (posts_per_sub : Nat := 5) :
    RunResult :=
  let fetched := fetchAllT O posts_per_sub subreddits
  let all_posts := fetched.1
  let ftrace := fetched.2
  if all_posts.isEmpty then
    { res := .error (.runtimeError aggFailMsg), trace := ftrace }
  else
    let fr := O.filterFn all_posts
    let ranked_data := fr.1
    let us1 := updateUsageOpt initStats fr.2
    if ranked_data.isEmpty then
      { res := .ok { posts := [], selected_threads := [], usage := us1 }, trace := ftrace }
    else
      let ls := processCandidates O all_posts (ranked_data.take 10) (initLoopState us1)
      let approved_threads :=
        if ls.approved.isEmpty then
          match ls.bestThread with
          | some b => [b]
          | none => []
        else ls.approved
      if approved_threads.isEmpty then
        { res := .ok { posts := [], selected_threads := approved_threads, usage := ls.usage }
          trace := ftrace ++ ls.trace }
      else
        let nr := notify_all O.env O.tgSend approved_threads
        match nr.1 with
        | .ok _ =>
          { res := .ok { posts := [], selected_threads := approved_threads, usage := ls.usage }
            trace := ftrace ++ ls.trace ++ nr.2 }
        | .error e =>
          { res := .error (.httpError e), trace := ftrace ++ ls.trace ++ nr.2 }

/-! ## Entry point (`src/main.py`) -/

/-- The environment values read by `main` (the `int(...)` parse of
`POSTS_PER_SUB` is not modelled; the claims do not touch it). -/
structure EnvConfig where
  subreddits : Option String
  posts_per_sub : Nat := 3

/-- The `ValueError` text of the `SUBREDDITS` guard. -/
def cfgErrMsg : String :=
  "Environment variable 'SUBREDDITS' is required (comma-separated list)."

/-- The `SUBREDDITS` guard plus the strip/split comprehension of `main`:
`if not subreddits_env: raise ValueError(...)` then
`[s.strip() for s in subreddits_env.split(",") if s.strip()]`.  The guard
fires exactly on Python falsiness: the variable absent or the raw string
empty. -/
def parseSubreddits (v : Option String) : Except Err (List String) :=
  match v with
  | none => .error (.valueError cfgErrMsg)
  | some s =>
    if s == "" then .error (.valueError cfgErrMsg)
    else .ok (((pySplitComma s).map pyStrip).filter (fun x => x != ""))

/-- `main`: parse configuration, run one pipeline; an unhandled exception is
logged and re-raised (so it stays the final outcome). -/
def mainEntry (O : Oracles) (env : EnvConfig) : RunResult :=
  match parseSubreddits env.subreddits with
  | .error e => { res := .error e, trace := [] }
  | .ok subs => runPipeline O subs env.posts_per_sub

/-! ## Derived views of one run (named stages of `run_pipeline`, used to
state theorems about intermediate values) -/

/-- Stage-1 result: the aggregated post list of a run. -/
def aggPosts (O : Oracles) (subs : List String) (ppd : Nat) : List Post :=
  (fetchAllT O ppd subs).1

/-- Stage-2 result: the ranked list of a run. -/
def rankedOf (O : Oracles) (subs : List String) (ppd : Nat) : List RankItem :=
  (O.filterFn (aggPosts O subs ppd)).1

/-- The ledger after merging the ranking call's usage. -/
def usage1Of (O : Oracles) (subs : List String) (ppd : Nat) : UsageStats :=
  updateUsageOpt initStats (O.filterFn (aggPosts O subs ppd)).2

/-- The loop state after the per-candidate loop of a run. -/
def loopStateOf (O : Oracles) (subs : List String) (ppd : Nat) : LoopState :=
  processCandidates O (aggPosts O subs ppd) ((rankedOf O subs ppd).take 10)
    (initLoopState (usage1Of O subs ppd))

/-- The output list after the fallback check of a run. -/
def approvedOf (O : Oracles) (subs : List String) (ppd : Nat) : List GThread :=
  let ls := loopStateOf O subs ppd
  if ls.approved.isEmpty then
    match ls.bestThread with
    | some b => [b]
    | none => []
  else ls.approved

/-- The `(score, thread)` pairs that reach judgment when the loop never
breaks early: mirrors the loop's skip conditions (unresolved id, empty
generation) on the same inputs. -/
def judgedItems (O : Oracles) (allPosts : List Post) : List RankItem → List (Rat × GThread)
  | [] => []
  | item :: rest =>
    match allPosts.find? (fun p => p.id == item.id) with
    | none => judgedItems O allPosts rest
    | some post =>
      match (O.genFn [enrichP O post]).1.selected_threads with
      | [] => judgedItems O allPosts rest
      | t :: _ => (item.score, t) :: judgedItems O allPosts rest

/-- The judged `(score, thread)` pairs of a run. -/
def judgedOf (O : Oracles) (subs : List String) (ppd : Nat) : List (Rat × GThread) :=
  judgedItems O (aggPosts O subs ppd) ((rankedOf O subs ppd).take 10)

/-- The fallback accumulation of the loop in isolation: strict improvement
on the score updates the retained thread (`if score > best_judge_score`). -/
def foldBest : List (Rat × GThread) → Option GThread → Rat → Option GThread × Rat
  | [], b, bs => (b, bs)
  | p :: rest, b, bs =>
    if p.1 > bs then foldBest rest (some p.2) p.1 else foldBest rest b bs

/-- Spec-side definition (from the spec's words, for comparison with the
loop): the earliest entry achieving the strictly highest score of the list. -/
def firstMax : List (Rat × GThread) → Option (Rat × GThread)
  | [] => none
  | p :: rest =>
    match firstMax rest with
    | none => some p
    | some q => if q.1 > p.1 then some q else some p

/-- Spec-side definition (from the spec's words, for comparison with
`collectPosts`): filter out moderator authors, keep feed order, take the
first `limit` survivors. -/
def collectSpec (L : FeedLibs) (subreddit : String) (limit : Nat)
    (entries : List Entry) : List Post :=
  ((entries.filter (fun e => !isModAuthor (e.author.getD "unknown"))).take limit).map
    (mkPost L subreddit)

/-- Event classifiers used to state frame conditions. -/
def isFetched : Event → Bool
  | .fetched _ => true
  | _ => false

def isSendAttempt : Event → Bool
  | .sendAttempt _ => true
  | _ => false

/-- The ledger invariant of claim C10: the grand total equals the sum of
the per-model costs. -/
def ledgerInv (s : UsageStats) : Prop := s.total_cost = modelCostSum s.models

/-! ## Concrete fixtures (used to instantiate the theorems on closed runs) -/

def mkFixPost (n : String) : Post :=
  { id := n, title := "P" ++ n, link := "l" ++ n, author := "alice", subreddit := "s"
    updated := "u", rss_summary := "sum" ++ n }

def post1 : Post := mkFixPost "1"
def post2 : Post := mkFixPost "2"
def post3 : Post := mkFixPost "3"
def post4 : Post := mkFixPost "4"
def post5 : Post := mkFixPost "5"

/-- A generated thread derived from a post (what the generator oracle of
the fixtures returns). -/
def thr (p : Post) : GThread :=
  { post_id := p.id, post_title := p.title, tweets := ["tweet " ++ p.id], reasoning := "" }

def acceptDecision : EditorialDecision :=
  { action := "accept", confidence := 1, weakness := "", suggested_revision := "" }

def rejectDecision : EditorialDecision :=
  { action := "revise", confidence := 0, weakness := "weak hook", suggested_revision := "" }

def tgEnvOk : TgEnv := { bot_token := some "t", chat_id := some "c" }

/-- Fixture: a run that approves two threads and whose messaging channel
fails every POST. -/
def failingSendOracles : Oracles :=
  { fetchFn := fun _ _ => [post1, post2]
    filterFn := fun _ => ([⟨"1", 90⟩, ⟨"2", 80⟩], none)
    extractFn := fun _ => "full"
    genFn := fun ps => ({ selected_threads := ps.map thr }, none)
    judgeFn := fun _ => (acceptDecision, none)
    env := tgEnvOk
    tgSend := fun _ => .error "HTTPError 400" }

/-- Fixture: inert services (used where the oracles are irrelevant). -/
def dummyOracles : Oracles :=
  { fetchFn := fun _ _ => []
    filterFn := fun _ => ([], none)
    extractFn := fun _ => ""
    genFn := fun _ => ({ selected_threads := [] }, none)
    judgeFn := fun _ => (rejectDecision, none)
    env := {}
    tgSend := fun _ => .ok () }

/-- Fixture: every thread is judged `revise`; the second candidate ranks
higher than the first. -/
def rejectOracles : Oracles :=
  { fetchFn := fun _ _ => [post1, post2]
    filterFn := fun _ => ([⟨"1", 80⟩, ⟨"2", 90⟩], none)
    extractFn := fun _ => "full"
    genFn := fun ps => ({ selected_threads := ps.map thr }, none)
    judgeFn := fun _ => (rejectDecision, none)
    env := tgEnvOk
    tgSend := fun _ => .ok () }

/-- Fixture: five ranked candidates, every thread judged `accept`. -/
def acceptOracles : Oracles :=
  { fetchFn := fun _ _ => [post1, post2, post3, post4, post5]
    filterFn := fun _ => ([⟨"1", 90⟩, ⟨"2", 85⟩, ⟨"3", 80⟩, ⟨"4", 75⟩, ⟨"5", 70⟩], none)
    extractFn := fun _ => "full"
    genFn := fun ps => ({ selected_threads := ps.map thr }, none)
    judgeFn := fun _ => (acceptDecision, none)
    env := tgEnvOk
    tgSend := fun _ => .ok () }

/-- Fixture: aggregation succeeds but ranking returns nothing. -/
def emptyRankOracles : Oracles :=
  { fetchFn := fun _ _ => [post1]
    filterFn := fun _ => ([], none)
    extractFn := fun _ => ""
    genFn := fun _ => ({ selected_threads := [] }, none)
    judgeFn := fun _ => (acceptDecision, none)
    env := tgEnvOk
    tgSend := fun _ => .ok () }

/-- Fixture feed libraries (identity cleaning, fixed-width hash). -/
def fixLibs : FeedLibs :=
  { subTags := fun s => s, unescape := fun s => s, md5hex := fun s => s ++ "0000000000" }

def modEntry : Entry :=
  { author := some "AutoModerator", title := some "mod post", link := some "lm"
    updated := some "u", summary := some "ms" }

def mkFixEntry (n : String) : Entry :=
  { author := some "alice", title := some ("t" ++ n), link := some ("e" ++ n)
    updated := some "u", summary := some ("s" ++ n) }

def entry1 : Entry := mkFixEntry "1"
def entry2 : Entry := mkFixEntry "2"
def entry3 : Entry := mkFixEntry "3"

/-- Fixture feed: one moderator entry in front of three regular ones. -/
def fixFeed : List Entry := [modEntry, entry1, entry2, entry3]

def fixHttp : String → Except String (List Entry) := fun _ => .ok fixFeed

/-- A 350-character title, for the truncation witness. -/
def longTitle : String := ⟨List.replicate 350 'a'⟩

def witPost : Post :=
  { id := "p", title := longTitle, link := "", author := "alice", subreddit := "s"
    updated := "u", rss_summary := "short" }

/-- A usage record without a precomputed cost, for the ledger witnesses. -/
def witUsage : UsageData :=
  { model := "gpt-5-mini", prompt_tokens := 1000000, completion_tokens := 2000000
    total_tokens := 3000000, cost := none }

/-! # Supporting lemmas -/

theorem pyLen_append (a b : String) : pyLen (a ++ b) = pyLen a + pyLen b := by
  simp [pyLen, String.data_append]

theorem pyLen_pySlice (s : String) (n : Nat) : pyLen (pySlice s n) = min n (pyLen s) := by
  simp [pyLen, pySlice]

theorem truncateField_long (s : String) (limit : Nat) (h3 : 3 ≤ limit)
    (h : pyLen s > limit) :
    truncateField s limit = pySlice s (limit - 3) ++ "..." ∧
    pyLen (truncateField s limit) = limit := by
  have he : truncateField s limit = pySlice s (limit - 3) ++ "..." := by
    unfold truncateField
    rw [if_pos h]
  refine ⟨he, ?_⟩
  rw [he, pyLen_append, pyLen_pySlice]
  have hdots : pyLen "..." = 3 := by decide
  rw [hdots]
  omega

theorem truncateField_short (s : String) (limit : Nat) (h : pyLen s ≤ limit) :
    truncateField s limit = s := by
  unfold truncateField
  rw [if_neg (by omega)]

theorem collectPosts_eq_spec (L : FeedLibs) (sub : String) (limit : Nat)
    (entries : List Entry) :
    ∀ count : Nat,
      collectPosts L sub limit entries count =
        (((entries.filter (fun e => !isModAuthor (e.author.getD "unknown"))).take
            (limit - count)).map (mkPost L sub)) := by
  induction entries with
  | nil => intro count; simp [collectPosts]
  | cons e rest ih =>
    intro count
    by_cases hc : count ≥ limit
    · have h0 : limit - count = 0 := by omega
      simp [collectPosts, hc, h0]
    · cases hm : isModAuthor (e.author.getD "unknown") with
      | true => simp [collectPosts, hc, hm, ih]
      | false =>
        have hsub : limit - count = (limit - (count + 1)) + 1 := by omega
        simp [collectPosts, hc, hm, ih, hsub]

theorem find?_setStats_self (l : List (String × ModelStats)) (m : String)
    (st : ModelStats) :
    (setStats l m st).find? (fun p => p.1 == m) = some (m, st) := by
  induction l with
  | nil => simp [setStats]
  | cons kv rest ih =>
    obtain ⟨k, v⟩ := kv
    by_cases hk : k = m
    · subst hk
      simp [setStats]
    · have hb : (k == m) = false := by simp [hk]
      simp [setStats, hb, ih]

theorem find?_setStats_other (l : List (String × ModelStats)) (m m' : String)
    (st : ModelStats) (hne : m' ≠ m) :
    (setStats l m st).find? (fun p => p.1 == m') = l.find? (fun p => p.1 == m') := by
  induction l with
  | nil =>
    have hb : (m == m') = false := by
      simp only [beq_eq_false_iff_ne, ne_eq]
      exact fun h => hne h.symm
    simp [setStats, hb]
  | cons kv rest ih =>
    obtain ⟨k, v⟩ := kv
    by_cases hk : k = m
    · subst hk
      have hb : (k == m') = false := by
        simp only [beq_eq_false_iff_ne, ne_eq]
        exact fun h => hne h.symm
      simp [setStats, hb]
    · have hkm : (k == m) = false := by simp [hk]
      by_cases hk' : k = m'
      · subst hk'
        simp [setStats, hkm]
      · have hb : (k == m') = false := by simp [hk']
        simp [setStats, hkm, hb, ih]

theorem getStats_updateUsage_self (s : UsageStats) (u : UsageData) :
    getStats (updateUsage s u) u.model =
      some { prompt := ((getStats s u.model).getD freshStats).prompt + u.prompt_tokens
             completion := ((getStats s u.model).getD freshStats).completion + u.completion_tokens
             total := ((getStats s u.model).getD freshStats).total + u.total_tokens
             cost := ((getStats s u.model).getD freshStats).cost + effCost u } := by
  unfold updateUsage getStats
  simp [find?_setStats_self]

theorem getStats_updateUsage_other (s : UsageStats) (u : UsageData) (m : String)
    (hm : m ≠ u.model) :
    getStats (updateUsage s u) m = getStats s m := by
  unfold updateUsage getStats
  simp [find?_setStats_other _ _ _ _ hm]

theorem effCost_mini (u : UsageData) (hnc : u.cost = none)
    (hm : pyContains u.model "gpt-5-mini" = true) :
    effCost u = u.prompt_tokens * ((0.15 : Rat) / 1000000) +
      u.completion_tokens * ((0.6 : Rat) / 1000000) := by
  unfold effCost
  simp [hnc, hm]

theorem effCost_highTier (u : UsageData) (hnc : u.cost = none)
    (hm : pyContains u.model "gpt-5-mini" = false)
    (hh : pyContains u.model "gpt-5.2" = true) :
    effCost u = u.prompt_tokens * ((10.0 : Rat) / 1000000) +
      u.completion_tokens * ((30.0 : Rat) / 1000000) := by
  unfold effCost
  simp [hnc, hm, hh]

theorem modelCostSum_setStats (l : List (String × ModelStats)) (m : String)
    (st : ModelStats) :
    modelCostSum (setStats l m st) +
      (((l.find? (fun p => p.1 == m)).map (·.2)).getD freshStats).cost =
    modelCostSum l + st.cost := by
  induction l with
  | nil => simp [setStats, modelCostSum, freshStats]
  | cons kv rest ih =>
    obtain ⟨k, v⟩ := kv
    by_cases hk : k = m
    · subst hk
      simp [setStats, modelCostSum]
      ring
    · have hb : (k == m) = false := by simp [hk]
      simp only [setStats, hb, Bool.false_eq_true, if_false, modelCostSum,
        List.foldr_cons, List.find?_cons, cond_false] at *
      -- goal: (v.cost + fold (setStats rest)) + find-rest-cost = (v.cost + fold rest) + st.cost
      have := ih
      simp only [modelCostSum] at this
      linarith

theorem fetchAllT_trace_fetched (O : Oracles) (ppd : Nat) :
    ∀ subs : List String, ((fetchAllT O ppd subs).2).all isFetched = true := by
  intro subs
  induction subs with
  | nil => rfl
  | cons s rest ih => simp [fetchAllT, isFetched, ih]

/-- When the messaging API always succeeds, `notify_all` cannot raise. -/
theorem notify_all_ok (env : TgEnv) (api : String → Except String Unit)
    (hok : ∀ m, api m = .ok ()) :
    ∀ ts : List GThread, ∃ ev, notify_all env api ts = (.ok (), ev) := by
  intro ts
  induction ts with
  | nil => exact ⟨[], rfl⟩
  | cons t rest ih =>
    obtain ⟨ev, hev⟩ := ih
    by_cases hcred : (!truthyStr env.bot_token || !truthyStr env.chat_id) = true
    · refine ⟨ev, ?_⟩
      simp [notify_all, send_thread, hcred, hev]
    · by_cases htw : t.tweets.isEmpty = true
      · refine ⟨ev, ?_⟩
        simp [notify_all, send_thread, hcred, htw, hev]
      · refine ⟨.sendAttempt (buildThreadMessage t) :: ev, ?_⟩
        simp [notify_all, send_thread, hcred, htw, hok, hev]

/-- Normal form of `run_pipeline` once aggregation and ranking are
non-empty: the result is determined by the fallback-checked output list and
the notification outcome. -/
theorem runPipeline_eq (O : Oracles) (subs : List String) (ppd : Nat)
    (hpost : aggPosts O subs ppd ≠ []) (hrank : rankedOf O subs ppd ≠ []) :
    runPipeline O subs ppd =
      (if (approvedOf O subs ppd).isEmpty then
        { res := .ok { posts := [], selected_threads := approvedOf O subs ppd
                       usage := (loopStateOf O subs ppd).usage }
          trace := (fetchAllT O ppd subs).2 ++ (loopStateOf O subs ppd).trace }
      else
        match (notify_all O.env O.tgSend (approvedOf O subs ppd)).1 with
        | .ok _ =>
          { res := .ok { posts := [], selected_threads := approvedOf O subs ppd
                         usage := (loopStateOf O subs ppd).usage }
            trace := (fetchAllT O ppd subs).2 ++ (loopStateOf O subs ppd).trace ++
              (notify_all O.env O.tgSend (approvedOf O subs ppd)).2 }
        | .error e =>
          { res := .error (.httpError e)
            trace := (fetchAllT O ppd subs).2 ++ (loopStateOf O subs ppd).trace ++
              (notify_all O.env O.tgSend (approvedOf O subs ppd)).2 }) := by
  have h1 : ((fetchAllT O ppd subs).1.isEmpty = true) = False := by
    simp only [eq_iff_iff, iff_false]
    simpa [List.isEmpty_iff] using hpost
  have h2 : (((O.filterFn (fetchAllT O ppd subs).1).1).isEmpty = true) = False := by
    simp only [eq_iff_iff, iff_false]
    simpa [List.isEmpty_iff, rankedOf, aggPosts] using hrank
  unfold runPipeline
  simp only [h1, if_false]
  simp only [h2, if_false]
  unfold approvedOf loopStateOf usage1Of rankedOf aggPosts
  rfl

theorem judgedItems_nil_posts (O : Oracles) :
    ∀ l : List RankItem, judgedItems O [] l = [] := by
  intro l
  induction l with
  | nil => rfl
  | cons item rest ih => simp [judgedItems, ih]

/-- Under a never-accepting judge, the loop approves nothing and its
fallback pair is exactly the `foldBest` of the judged `(score, thread)`
pairs. -/
theorem processCandidates_reject (O : Oracles) (allPosts : List Post)
    (hrej : ∀ text, ((O.judgeFn text).1.action == "accept") = false) :
    ∀ (l : List RankItem) (s : LoopState),
      (processCandidates O allPosts l s).approved = s.approved ∧
      ((processCandidates O allPosts l s).bestThread,
        (processCandidates O allPosts l s).bestScore) =
        foldBest (judgedItems O allPosts l) s.bestThread s.bestScore := by
  intro l
  induction l with
  | nil => intro s; exact ⟨rfl, rfl⟩
  | cons item rest ih =>
    intro s
    cases hf : allPosts.find? (fun p => p.id == item.id) with
    | none =>
      simp only [processCandidates, judgedItems, hf]
      exact ih s
    | some post =>
      cases hg : (O.genFn [enrichP O post]).1.selected_threads with
      | nil =>
        simp only [processCandidates, judgedItems, hf, hg]
        exact ih _
      | cons t ts =>
        have hr := hrej (String.intercalate "\n\n" t.tweets)
        simp only [processCandidates, judgedItems, hf, hg, hr, Bool.false_eq_true,
          if_false, foldBest]
        by_cases hsc : item.score > s.bestScore
        · simp only [if_pos hsc]
          exact ih _
        · simp only [if_neg hsc]
          exact ih _

/-- `foldBest` computes the earliest strict maximum above the running
threshold. -/
theorem foldBest_firstMax :
    ∀ (l : List (Rat × GThread)) (b : Option GThread) (bs : Rat),
      foldBest l b bs =
        match firstMax l with
        | none => (b, bs)
        | some q => if q.1 > bs then (some q.2, q.1) else (b, bs) := by
  intro l
  induction l with
  | nil => intro b bs; rfl
  | cons p rest ih =>
    intro b bs
    cases hq : firstMax rest with
    | none =>
      have hrest : rest = [] := by
        cases rest with
        | nil => rfl
        | cons x xs =>
          rw [firstMax] at hq
          cases hfx : firstMax xs <;> rw [hfx] at hq <;> simp at hq
          split at hq <;> simp at hq
      subst hrest
      simp [foldBest, firstMax]
    | some q =>
      by_cases h1 : p.1 > bs
      · rw [foldBest, if_pos h1, ih, hq]
        by_cases h2 : q.1 > p.1
        · have h3 : q.1 > bs := lt_trans h1 h2
          simp [firstMax, hq, h2, h3]
        · simp [firstMax, hq, h2, h1]
      · rw [foldBest, if_neg h1, ih, hq]
        by_cases h2 : q.1 > p.1
        · simp [firstMax, hq, h2]
        · have h3 : ¬ q.1 > bs := by
            push_neg at h1 h2 ⊢
            exact le_trans h2 h1
          simp [firstMax, hq, h2, h1, h3]

theorem firstMax_isSome (l : List (Rat × GThread)) (hne : l ≠ []) :
    ∃ q, firstMax l = some q := by
  cases l with
  | nil => exact absurd rfl hne
  | cons p rest =>
    rw [firstMax]
    cases firstMax rest with
    | none => exact ⟨p, rfl⟩
    | some q =>
      by_cases h : q.1 > p.1
      · exact ⟨q, by simp [h]⟩
      · exact ⟨p, by simp [h]⟩

/-- The score selected by `firstMax` bounds every score in the list. -/
theorem firstMax_score_le :
    ∀ (l : List (Rat × GThread)) (q : Rat × GThread), firstMax l = some q →
      ∀ x ∈ l, x.1 ≤ q.1 := by
  intro l
  induction l with
  | nil => intro q hq; simp [firstMax] at hq
  | cons p rest ih =>
    intro q hq x hx
    rw [firstMax] at hq
    cases hr : firstMax rest with
    | none =>
      rw [hr] at hq
      cases hq
      rcases List.mem_cons.mp hx with h | h
      · exact le_of_eq (by rw [h])
      · cases rest with
        | nil => simp at h
        | cons y ys =>
          rw [firstMax] at hr
          cases hfy : firstMax ys <;> rw [hfy] at hr <;> simp at hr
          split at hr <;> simp at hr
    | some r =>
      rw [hr] at hq
      have hq' : (if r.1 > p.1 then some r else some p) = some q := hq
      by_cases h2 : r.1 > p.1
      · rw [if_pos h2] at hq'
        cases hq'
        rcases List.mem_cons.mp hx with h | h
        · rw [h]; exact le_of_lt h2
        · exact ih q hr x h
      · rw [if_neg h2] at hq'
        cases hq'
        rcases List.mem_cons.mp hx with h | h
        · exact le_of_eq (by rw [h])
        · push_neg at h2
          exact le_trans (ih r hr x h) h2

/-- `firstMax` returns the earliest entry achieving the maximal score:
every earlier entry scores strictly lower, every later one at most equal. -/
theorem firstMax_split :
    ∀ (l : List (Rat × GThread)) (q : Rat × GThread), firstMax l = some q →
      ∃ l1 l2, l = l1 ++ q :: l2 ∧ (∀ x ∈ l1, x.1 < q.1) ∧ (∀ x ∈ l2, x.1 ≤ q.1) := by
  intro l
  induction l with
  | nil => intro q hq; simp [firstMax] at hq
  | cons p rest ih =>
    intro q hq
    rw [firstMax] at hq
    cases hr : firstMax rest with
    | none =>
      rw [hr] at hq
      cases hq
      have hrest : rest = [] := by
        cases rest with
        | nil => rfl
        | cons y ys =>
          rw [firstMax] at hr
          cases hfy : firstMax ys <;> rw [hfy] at hr <;> simp at hr
          split at hr <;> simp at hr
      subst hrest
      exact ⟨[], [], rfl, by simp, by simp⟩
    | some r =>
      rw [hr] at hq
      have hq' : (if r.1 > p.1 then some r else some p) = some q := hq
      by_cases h2 : r.1 > p.1
      · rw [if_pos h2] at hq'
        cases hq'
        obtain ⟨l1, l2, heq, hlt, hle⟩ := ih q hr
        refine ⟨p :: l1, l2, by rw [heq]; rfl, ?_, hle⟩
        intro x hx
        rcases List.mem_cons.mp hx with h | h
        · rw [h]; exact h2
        · exact hlt x h
      · rw [if_neg h2] at hq'
        cases hq'
        push_neg at h2
        refine ⟨[], rest, rfl, by simp, ?_⟩
        intro x hx
        exact le_trans (firstMax_score_le rest r hr x hx) h2

/-! # Claim theorems -/

/-- **C6.** If aggregation returns at least one post but ranking yields
zero ranked results, `run_pipeline` completes normally with an empty
selected-threads output, and the run performs no extraction, generation,
judgment, rejection notice or notification attempt (its whole trace
consists of fetch events only). -/
theorem c6_empty_ranking (O : Oracles) (subs : List String) (ppd : Nat)
    (hpost : aggPosts O subs ppd ≠ [])
    (hrank : rankedOf O subs ppd = []) :
    (runPipeline O subs ppd).res =
      .ok { posts := [], selected_threads := [], usage := usage1Of O subs ppd } ∧
    (runPipeline O subs ppd).trace.all isFetched = true := by
  have h1 : ((fetchAllT O ppd subs).1.isEmpty = true) = False := by
    simp only [eq_iff_iff, iff_false]
    simpa [List.isEmpty_iff] using hpost
  have h2 : ((O.filterFn (fetchAllT O ppd subs).1).1).isEmpty = true := by
    simpa [List.isEmpty_iff, rankedOf, aggPosts] using hrank
  constructor
  · unfold runPipeline
    simp only [h1, if_false, h2, if_true]
    rfl
  · unfold runPipeline
    simp only [h1, if_false, h2, if_true]
    exact fetchAllT_trace_fetched O ppd subs

theorem c6_empty_ranking_witness :
    aggPosts emptyRankOracles ["s"] 3 ≠ [] ∧
    rankedOf emptyRankOracles ["s"] 3 = [] ∧
    ((runPipeline emptyRankOracles ["s"] 3).res =
        .ok { posts := [], selected_threads := [], usage := usage1Of emptyRankOracles ["s"] 3 } ∧
      (runPipeline emptyRankOracles ["s"] 3).trace.all isFetched = true) := by
  have hpost : aggPosts emptyRankOracles ["s"] 3 ≠ [] := by
    have hv : aggPosts emptyRankOracles ["s"] 3 = [post1] := rfl
    rw [hv]
    exact List.cons_ne_nil _ _
  exact ⟨hpost, rfl, c6_empty_ranking emptyRankOracles ["s"] 3 hpost rfl⟩

/-- **C2 counterexample.** A `SUBREDDITS` value that is non-empty text but
trims to nothing (here `" , "`) does NOT trigger the entry point's fatal
`ValueError` configuration guard: the guard passes with an empty community
list and the run instead dies inside the pipeline with the Stage-1
aggregation `RuntimeError` — contradicting the claim that the entry point
raises a configuration error for this input. -/
theorem c2_counterexample :
    parseSubreddits (some " , ") = .ok [] ∧
    (mainEntry dummyOracles { subreddits := some " , " }).res =
      .error (.runtimeError aggFailMsg) ∧
    (mainEntry dummyOracles { subreddits := some " , " }).trace = [] := by
  refine ⟨?_, ?_, ?_⟩ <;> rfl

/-- **C2 amended.** The entry point's fatal `ValueError` fires exactly when
the community-list variable is absent or the raw string is empty; a
non-empty value whose comma-separated pieces all trim to nothing passes the
guard, yields an empty community list, and the run then fails fatally at
the aggregation stage (`RuntimeError`, zero posts) — still before any feed
fetch or language-model call is attempted (empty trace). -/
theorem c2_amended_guard :
    (∀ (O : Oracles) (env : EnvConfig),
      env.subreddits = none ∨ env.subreddits = some "" →
      (mainEntry O env).res = .error (.valueError cfgErrMsg) ∧ (mainEntry O env).trace = []) ∧
    (∀ (O : Oracles) (env : EnvConfig) (s : String),
      env.subreddits = some s → s ≠ "" →
      ((pySplitComma s).map pyStrip).filter (fun x => x != "") = [] →
      (mainEntry O env).res = .error (.runtimeError aggFailMsg) ∧
        (mainEntry O env).trace = []) := by
  constructor
  · rintro O env (h | h) <;> simp [mainEntry, parseSubreddits, h]
  · intro O env s hs hne hfilter
    have hbeq : (s == "") = false := by simp [hne]
    simp [mainEntry, parseSubreddits, hs, hbeq, hfilter, runPipeline, fetchAllT]

theorem c2_amended_guard_witness :
    ((mainEntry dummyOracles { subreddits := none }).res = .error (.valueError cfgErrMsg) ∧
      (mainEntry dummyOracles { subreddits := none }).trace = []) ∧
    ((mainEntry dummyOracles { subreddits := some "  ,, " }).res =
        .error (.runtimeError aggFailMsg) ∧
      (mainEntry dummyOracles { subreddits := some "  ,, " }).trace = []) :=
  ⟨c2_amended_guard.1 dummyOracles { subreddits := none } (Or.inl rfl),
   c2_amended_guard.2 dummyOracles { subreddits := some "  ,, " } "  ,, " rfl
     (by decide) (by decide)⟩

/-- **C1 counterexample.** A single failing thread delivery is NOT caught:
on a concrete run that approves two threads and whose messaging POST
errors, `run_pipeline` propagates the exception instead of returning its
normal result, and only one delivery is attempted — the remaining thread is
never tried. -/
theorem c1_counterexample :
    (runPipeline failingSendOracles ["s"] 3).res = .error (.httpError "HTTPError 400") ∧
    ((runPipeline failingSendOracles ["s"] 3).trace.filter isSendAttempt).length = 1 ∧
    (approvedOf failingSendOracles ["s"] 3).length = 2 := by
  refine ⟨?_, ?_, ?_⟩ <;> rfl

/-- **C1 amended.** A thread-delivery failure inside `notify_all` is not
caught: `notify_all` stops at the failing thread without attempting the
remaining ones and the exception propagates out of `run_pipeline`, aborting
the run; only rejection-notice deliveries absorb their failure (returning
`false`). -/
theorem c1_amended_propagation :
    (∀ (env : TgEnv) (api : String → Except String Unit) (t : GThread)
        (ts : List GThread) (e : String) (ev : List Event),
      send_thread env api t = (.error e, ev) →
      notify_all env api (t :: ts) = (.error e, ev)) ∧
    (∀ (env : TgEnv) (api : String → Except String Unit) (title reason e : String),
      api ("🚫 *ABORTED THREAD*\n\n*Topic*: " ++ title ++ "\n*Reason*: " ++ reason) =
        .error e →
      send_rejection_notice env api title reason = false) ∧
    (∀ (O : Oracles) (subs : List String) (ppd : Nat) (e : String),
      aggPosts O subs ppd ≠ [] →
      rankedOf O subs ppd ≠ [] →
      approvedOf O subs ppd ≠ [] →
      (notify_all O.env O.tgSend (approvedOf O subs ppd)).1 = .error e →
      (runPipeline O subs ppd).res = .error (.httpError e)) := by
  refine ⟨?_, ?_, ?_⟩
  · intro env api t ts e ev h
    simp [notify_all, h]
  · intro env api title reason e h
    unfold send_rejection_notice
    by_cases hc : (!truthyStr env.bot_token || !truthyStr env.chat_id) = true
    · rw [if_pos hc]
    · rw [if_neg hc, h]
  · intro O subs ppd e h1 h2 h3 h4
    rw [runPipeline_eq O subs ppd h1 h2]
    have hA : ((approvedOf O subs ppd).isEmpty = true) = False := by
      simp only [eq_iff_iff, iff_false]
      simpa [List.isEmpty_iff] using h3
    simp only [hA, if_false, h4]

/-- **C3.** If every generated thread is judged non-accept, the run's sole
output thread is the rejected thread whose originating candidate had the
strictly highest ranking score among the processed rejections (every
earlier rejection scores strictly lower, every later one at most equal —
ties keep the earlier candidate); and whenever the loop approves at least
one thread, the retained fallback has no effect on the output. -/
theorem c3_fallback_selection :
    (∀ (O : Oracles) (subs : List String) (ppd : Nat),
      (∀ text, ((O.judgeFn text).1.action == "accept") = false) →
      judgedOf O subs ppd ≠ [] →
      (∀ x ∈ judgedOf O subs ppd, (0 : Rat) ≤ x.1) →
      (∀ m, O.tgSend m = .ok ()) →
      ∃ q l1 l2,
        judgedOf O subs ppd = l1 ++ q :: l2 ∧
        (∀ x ∈ l1, x.1 < q.1) ∧ (∀ x ∈ l2, x.1 ≤ q.1) ∧
        ∃ pr, (runPipeline O subs ppd).res = .ok pr ∧ pr.selected_threads = [q.2]) ∧
    (∀ (O : Oracles) (subs : List String) (ppd : Nat),
      aggPosts O subs ppd ≠ [] →
      rankedOf O subs ppd ≠ [] →
      (loopStateOf O subs ppd).approved ≠ [] →
      (∀ m, O.tgSend m = .ok ()) →
      ∃ pr, (runPipeline O subs ppd).res = .ok pr ∧
        pr.selected_threads = (loopStateOf O subs ppd).approved) := by
  constructor
  · intro O subs ppd hrej hne hsc hsend
    have hpost : aggPosts O subs ppd ≠ [] := by
      intro h
      apply hne
      unfold judgedOf
      rw [h, judgedItems_nil_posts]
    have hrank : rankedOf O subs ppd ≠ [] := by
      intro h
      apply hne
      unfold judgedOf
      rw [h]
      rfl
    obtain ⟨happ, hbest⟩ := processCandidates_reject O (aggPosts O subs ppd) hrej
      ((rankedOf O subs ppd).take 10) (initLoopState (usage1Of O subs ppd))
    have happ' : (loopStateOf O subs ppd).approved = [] := happ
    obtain ⟨q, hq⟩ := firstMax_isSome (judgedOf O subs ppd) hne
    obtain ⟨l1, l2, hsplit, hlt, hle⟩ := firstMax_split _ q hq
    have hqmem : q ∈ judgedOf O subs ppd := by rw [hsplit]; simp
    have hqgt : q.1 > (-1 : Rat) := by linarith [hsc q hqmem]
    have hbb : foldBest (judgedOf O subs ppd) none (-1) = (some q.2, q.1) := by
      rw [foldBest_firstMax, hq]
      simp [hqgt]
    have hbest2 : ((loopStateOf O subs ppd).bestThread, (loopStateOf O subs ppd).bestScore) =
        (some q.2, q.1) := by
      have h0 : ((loopStateOf O subs ppd).bestThread, (loopStateOf O subs ppd).bestScore) =
          foldBest (judgedOf O subs ppd) none (-1) := hbest
      rw [h0, hbb]
    have hb : (loopStateOf O subs ppd).bestThread = some q.2 := congrArg Prod.fst hbest2
    have hA : approvedOf O subs ppd = [q.2] := by
      unfold approvedOf
      simp [happ', hb]
    obtain ⟨ev, hev⟩ := notify_all_ok O.env O.tgSend hsend [q.2]
    refine ⟨q, l1, l2, hsplit, hlt, hle, ?_⟩
    rw [runPipeline_eq O subs ppd hpost hrank, hA]
    simp only [hev, List.isEmpty_cons, Bool.false_eq_true, if_false]
    exact ⟨_, rfl, rfl⟩
  · intro O subs ppd hpost hrank happ hsend
    have hA : approvedOf O subs ppd = (loopStateOf O subs ppd).approved := by
      unfold approvedOf
      simp [List.isEmpty_iff, happ]
    obtain ⟨ev, hev⟩ := notify_all_ok O.env O.tgSend hsend ((loopStateOf O subs ppd).approved)
    rw [runPipeline_eq O subs ppd hpost hrank, hA]
    have hAe : (((loopStateOf O subs ppd).approved).isEmpty = true) = False := by
      simp [List.isEmpty_iff, happ]
    simp only [hAe, if_false, hev]
    exact ⟨_, rfl, rfl⟩

theorem c3_fallback_selection_witness :
    judgedOf rejectOracles ["s"] 3 ≠ [] ∧
    (∃ q l1 l2,
      judgedOf rejectOracles ["s"] 3 = l1 ++ q :: l2 ∧
      (∀ x ∈ l1, x.1 < q.1) ∧ (∀ x ∈ l2, x.1 ≤ q.1) ∧
      ∃ pr, (runPipeline rejectOracles ["s"] 3).res = .ok pr ∧
        pr.selected_threads = [q.2]) := by
  have hv : judgedOf rejectOracles ["s"] 3 =
      [(80, thr (enrichP rejectOracles post1)), (90, thr (enrichP rejectOracles post2))] := rfl
  have hne : judgedOf rejectOracles ["s"] 3 ≠ [] := by
    rw [hv]
    simp
  refine ⟨hne, c3_fallback_selection.1 rejectOracles ["s"] 3 (fun _ => rfl) hne ?_
    (fun _ => rfl)⟩
  intro x hx
  rw [hv] at hx
  simp only [List.mem_cons, List.not_mem_nil, or_false] at hx
  rcases hx with rfl | rfl <;> norm_num

/-- One accepted iteration of the per-candidate loop: the thread is
appended to the approved set; at quota the loop halts, otherwise it
continues on the remaining candidates. -/
theorem processCandidates_accept_step (O : Oracles) (ap : List Post)
    (item : RankItem) (rest : List RankItem) (s : LoopState) (post : Post)
    (hf : ap.find? (fun p => p.id == item.id) = some post)
    (t : GThread) (ts : List GThread)
    (hg : (O.genFn [enrichP O post]).1.selected_threads = t :: ts)
    (hacc : ((O.judgeFn (String.intercalate "\n\n" t.tweets)).1.action == "accept") = true) :
    processCandidates O ap (item :: rest) s =
      (if (s.approved ++ [t]).length ≥ 3 then
        { approved := s.approved ++ [t]
          bestThread := s.bestThread
          bestScore := s.bestScore
          usage := updateUsageOpt (updateUsageOpt s.usage (O.genFn [enrichP O post]).2)
            (O.judgeFn (String.intercalate "\n\n" t.tweets)).2
          trace := s.trace ++ [.enriched post.id, .generated post.id] ++ [.judged post.id] }
      else
        processCandidates O ap rest
          { approved := s.approved ++ [t]
            bestThread := s.bestThread
            bestScore := s.bestScore
            usage := updateUsageOpt (updateUsageOpt s.usage (O.genFn [enrichP O post]).2)
              (O.judgeFn (String.intercalate "\n\n" t.tweets)).2
            trace := s.trace ++ [.enriched post.id, .generated post.id] ++
              [.judged post.id] }) := by
  simp only [processCandidates, hf, hg, hacc, if_true]

/-- **C4.** The per-candidate loop processes at most the top 10 entries of
the ranked list (its outcome depends only on them, in ranked order) and
halts at 3 approvals: on a run with 5 or more ranked candidates that all
resolve, generate and get judged `accept`, exactly 3 threads are approved
and the loop's whole trace consists of the enrichment, generation and
judgment of the first three candidates only — candidates after the third
approval are neither enriched, generated nor judged. -/
theorem c4_quota_enforcement :
    (∀ (O : Oracles) (ap : List Post) (ranked : List RankItem) (s : LoopState),
      processCandidates O ap (ranked.take 10) s =
        processCandidates O ap ((ranked.take 10).take 10) s) ∧
    (∀ (O : Oracles) (subs : List String) (ppd : Nat)
        (i1 i2 i3 i4 i5 : RankItem) (rest : List RankItem),
      rankedOf O subs ppd = i1 :: i2 :: i3 :: i4 :: i5 :: rest →
      (∀ it ∈ rankedOf O subs ppd,
        (aggPosts O subs ppd).find? (fun p => p.id == it.id) ≠ none) →
      (∀ p : Post, (O.genFn [p]).1.selected_threads ≠ []) →
      (∀ text, (O.judgeFn text).1.action = "accept") →
      (∀ m, O.tgSend m = .ok ()) →
      (loopStateOf O subs ppd).approved.length = 3 ∧
      (loopStateOf O subs ppd).trace =
        [.enriched i1.id, .generated i1.id, .judged i1.id,
         .enriched i2.id, .generated i2.id, .judged i2.id,
         .enriched i3.id, .generated i3.id, .judged i3.id] ∧
      ∃ pr, (runPipeline O subs ppd).res = .ok pr ∧ pr.selected_threads.length = 3) := by
  constructor
  · intro O ap ranked s
    simp [List.take_take]
  · intro O subs ppd i1 i2 i3 i4 i5 rest hranked hres hgen hacc hsend
    have hac : ∀ text, ((O.judgeFn text).1.action == "accept") = true := fun text => by
      simp [hacc text]
    have hm1 : i1 ∈ rankedOf O subs ppd := by rw [hranked]; simp
    have hm2 : i2 ∈ rankedOf O subs ppd := by rw [hranked]; simp
    have hm3 : i3 ∈ rankedOf O subs ppd := by rw [hranked]; simp
    obtain ⟨p1, hf1⟩ := Option.ne_none_iff_exists'.mp (hres i1 hm1)
    obtain ⟨p2, hf2⟩ := Option.ne_none_iff_exists'.mp (hres i2 hm2)
    obtain ⟨p3, hf3⟩ := Option.ne_none_iff_exists'.mp (hres i3 hm3)
    have hid1 : p1.id = i1.id := by simpa using List.find?_some hf1
    have hid2 : p2.id = i2.id := by simpa using List.find?_some hf2
    have hid3 : p3.id = i3.id := by simpa using List.find?_some hf3
    cases hg1 : (O.genFn [enrichP O p1]).1.selected_threads with
    | nil => exact absurd hg1 (hgen _)
    | cons t1 ts1 =>
    cases hg2 : (O.genFn [enrichP O p2]).1.selected_threads with
    | nil => exact absurd hg2 (hgen _)
    | cons t2 ts2 =>
    cases hg3 : (O.genFn [enrichP O p3]).1.selected_threads with
    | nil => exact absurd hg3 (hgen _)
    | cons t3 ts3 =>
    have htake : (rankedOf O subs ppd).take 10 =
        i1 :: i2 :: i3 :: i4 :: i5 :: rest.take 5 := by
      rw [hranked]
      rfl
    have hLS : loopStateOf O subs ppd =
        processCandidates O (aggPosts O subs ppd)
          (i1 :: i2 :: i3 :: i4 :: i5 :: rest.take 5)
          (initLoopState (usage1Of O subs ppd)) := by
      unfold loopStateOf
      rw [htake]
    rw [processCandidates_accept_step O _ i1 _ _ p1 hf1 t1 ts1 hg1 (hac _)] at hLS
    simp only [initLoopState, List.nil_append, List.length_cons, List.length_nil,
      List.length_singleton, ge_iff_le, Nat.reduceLeDiff, if_false] at hLS
    rw [processCandidates_accept_step O _ i2 _ _ p2 hf2 t2 ts2 hg2 (hac _)] at hLS
    simp only [List.length_cons, List.length_singleton, List.length_append,
      List.length_nil, ge_iff_le, Nat.reduceAdd, Nat.reduceLeDiff, if_false] at hLS
    rw [processCandidates_accept_step O _ i3 _ _ p3 hf3 t3 ts3 hg3 (hac _)] at hLS
    simp only [List.length_append, List.length_cons, List.length_singleton,
      List.length_nil, ge_iff_le, Nat.reduceAdd, Nat.reduceLeDiff, if_true] at hLS
    refine ⟨?_, ?_, ?_⟩
    · rw [hLS]
      simp
    · rw [hLS]
      simp [hid1, hid2, hid3]
    · have hpost : aggPosts O subs ppd ≠ [] :=
        List.ne_nil_of_mem (List.mem_of_find?_eq_some hf1)
      have hrank : rankedOf O subs ppd ≠ [] := by rw [hranked]; simp
      have happne : (loopStateOf O subs ppd).approved ≠ [] := by
        rw [hLS]
        simp
      have hA : approvedOf O subs ppd = (loopStateOf O subs ppd).approved := by
        unfold approvedOf
        simp [List.isEmpty_iff, happne]
      obtain ⟨ev, hev⟩ := notify_all_ok O.env O.tgSend hsend
        ((loopStateOf O subs ppd).approved)
      rw [runPipeline_eq O subs ppd hpost hrank, hA]
      have hAe : (((loopStateOf O subs ppd).approved).isEmpty = true) = False := by
        simp [List.isEmpty_iff, happne]
      simp only [hAe, if_false, hev]
      refine ⟨_, rfl, ?_⟩
      rw [hLS]
      simp

theorem c4_quota_enforcement_witness :
    rankedOf acceptOracles ["s"] 3 =
      ⟨"1", 90⟩ :: ⟨"2", 85⟩ :: ⟨"3", 80⟩ :: ⟨"4", 75⟩ :: ⟨"5", 70⟩ :: [] ∧
    ((loopStateOf acceptOracles ["s"] 3).approved.length = 3 ∧
      (loopStateOf acceptOracles ["s"] 3).trace =
        [.enriched "1", .generated "1", .judged "1",
         .enriched "2", .generated "2", .judged "2",
         .enriched "3", .generated "3", .judged "3"] ∧
      ∃ pr, (runPipeline acceptOracles ["s"] 3).res = .ok pr ∧
        pr.selected_threads.length = 3) := by
  refine ⟨rfl, c4_quota_enforcement.2 acceptOracles ["s"] 3
    ⟨"1", 90⟩ ⟨"2", 85⟩ ⟨"3", 80⟩ ⟨"4", 75⟩ ⟨"5", 70⟩ [] rfl ?_ ?_
    (fun _ => rfl) (fun _ => rfl)⟩
  · intro it hit
    have hv : rankedOf acceptOracles ["s"] 3 =
        [⟨"1", 90⟩, ⟨"2", 85⟩, ⟨"3", 80⟩, ⟨"4", 75⟩, ⟨"5", 70⟩] := rfl
    rw [hv] at hit
    simp only [List.mem_cons, List.not_mem_nil, or_false] at hit
    rcases hit with rfl | rfl | rfl | rfl | rfl <;> decide
  · intro p
    simp [acceptOracles]

theorem c1_amended_propagation_witness :
    send_thread tgEnvOk (fun _ => .error "boom") (thr post1) =
      (.error "boom", [.sendAttempt (buildThreadMessage (thr post1))]) ∧
    notify_all tgEnvOk (fun _ => .error "boom") [thr post1, thr post2] =
      (.error "boom", [.sendAttempt (buildThreadMessage (thr post1))]) :=
  ⟨rfl,
   c1_amended_propagation.1 tgEnvOk (fun _ => .error "boom") (thr post1) [thr post2]
     "boom" [.sendAttempt (buildThreadMessage (thr post1))] rfl⟩

/-- **C8.** In the ranking filter's payload construction, a title longer
than 300 characters is replaced by its first 297 characters plus a
3-character ellipsis (exactly 300 characters total); a title of at most 300
characters is unchanged; and the analogous rule holds for the summary with
the 1500-character limit (1497 kept + 3-character ellipsis). -/
theorem c8_payload_truncation (posts : List Post) (p : Post) (hmem : p ∈ posts) :
    ∃ item : PayloadItem, item ∈ buildPayload posts 300 1500 ∧ item.id = p.id ∧
      (pyLen p.title > 300 →
        item.title = pySlice p.title 297 ++ "..." ∧ pyLen item.title = 300) ∧
      (pyLen p.title ≤ 300 → item.title = p.title) ∧
      (pyLen p.rss_summary > 1500 →
        item.rss_summary = pySlice p.rss_summary 1497 ++ "..." ∧
        pyLen item.rss_summary = 1500) ∧
      (pyLen p.rss_summary ≤ 1500 → item.rss_summary = p.rss_summary) := by
  refine ⟨{ id := p.id, title := truncateField p.title 300,
            rss_summary := truncateField p.rss_summary 1500, subreddit := p.subreddit },
          ?_, rfl, ?_, ?_, ?_, ?_⟩
  · unfold buildPayload
    exact List.mem_map_of_mem _ hmem
  · intro h
    simpa using truncateField_long p.title 300 (by norm_num) h
  · intro h
    exact truncateField_short p.title 300 h
  · intro h
    simpa using truncateField_long p.rss_summary 1500 (by norm_num) h
  · intro h
    exact truncateField_short p.rss_summary 1500 h

theorem c8_payload_truncation_witness :
    witPost ∈ [witPost] ∧
    (∃ item : PayloadItem, item ∈ buildPayload [witPost] 300 1500 ∧ item.id = witPost.id ∧
      (pyLen witPost.title > 300 →
        item.title = pySlice witPost.title 297 ++ "..." ∧ pyLen item.title = 300) ∧
      (pyLen witPost.title ≤ 300 → item.title = witPost.title) ∧
      (pyLen witPost.rss_summary > 1500 →
        item.rss_summary = pySlice witPost.rss_summary 1497 ++ "..." ∧
        pyLen item.rss_summary = 1500) ∧
      (pyLen witPost.rss_summary ≤ 1500 → item.rss_summary = witPost.rss_summary)) :=
  ⟨List.mem_singleton.mpr rfl,
   c8_payload_truncation [witPost] witPost (List.mem_singleton.mpr rfl)⟩

/-- **C9.** `AIFilter.filter` called on an empty post list issues no
language-model request and returns a single bare empty list, while every
non-empty input yields a `(ranked, usage)` pair — the result shapes differ. -/
theorem c9_empty_input_shape (model : String)
    (complete : List PayloadItem → Except String RankResponse) (tl sl : Nat) :
    AIFilter.filter model complete [] tl sl = (.single [], []) ∧
    ∀ posts : List Post, posts ≠ [] →
      ∃ ranked usage, (AIFilter.filter model complete posts tl sl).1 = .tuple ranked usage := by
  refine ⟨rfl, ?_⟩
  intro posts hne
  cases posts with
  | nil => exact absurd rfl hne
  | cons p ps =>
    cases hc : complete (buildPayload (p :: ps) tl sl) with
    | ok r =>
      have hv : (AIFilter.filter model complete (p :: ps) tl sl).1 =
          .tuple (r.ranked_posts.take 15)
            (some { model := model
                    prompt_tokens := r.prompt_tokens
                    completion_tokens := r.completion_tokens
                    total_tokens := r.total_tokens
                    cost := some (r.prompt_tokens * ((0.15 : Rat) / 1000000) +
                      r.completion_tokens * ((0.60 : Rat) / 1000000)) }) := by
        simp [AIFilter.filter, hc]
      exact ⟨_, _, hv⟩
    | error e =>
      have hv : (AIFilter.filter model complete (p :: ps) tl sl).1 = .tuple [] none := by
        simp [AIFilter.filter, hc]
      exact ⟨_, _, hv⟩

theorem c9_empty_input_shape_witness :
    ([witPost] : List Post) ≠ [] ∧
    (∃ ranked usage,
      (AIFilter.filter "gpt-5-mini" (fun _ => .error "down") [witPost] 300 1500).1 =
        .tuple ranked usage) :=
  ⟨by simp,
   (c9_empty_input_shape "gpt-5-mini" (fun _ => .error "down") 300 1500).2 [witPost] (by simp)⟩

/-- **C7.** For every feed fetched with a 200 response,
`fetch_subreddit_posts` skips exactly the entries whose author contains
`automoderator` or `moderator` case-insensitively, keeps all other entries
in feed order, counts only accepted entries toward the limit, and stops
once `limit` entries are accepted: the result is the first `limit`
survivors of the moderator filter, normalized in order. -/
theorem c7_moderator_filter (L : FeedLibs) (http : String → Except String (List Entry))
    (subreddit filter_type : String) (limit : Nat) (entries : List Entry)
    (hok : http (urlFor filter_type subreddit) = .ok entries) :
    fetch_subreddit_posts L http subreddit filter_type limit =
      collectSpec L subreddit limit entries := by
  unfold fetch_subreddit_posts collectSpec
  rw [hok]
  simpa using collectPosts_eq_spec L subreddit limit entries 0

theorem c7_moderator_filter_witness :
    fixHttp (urlFor "hot" "s") = .ok fixFeed ∧
    fetch_subreddit_posts fixLibs fixHttp "s" "hot" 2 = collectSpec fixLibs "s" 2 fixFeed ∧
    fetch_subreddit_posts fixLibs fixHttp "s" "hot" 2 =
      [mkPost fixLibs "s" entry1, mkPost fixLibs "s" entry2] :=
  ⟨rfl, c7_moderator_filter fixLibs fixHttp "s" "hot" 2 fixFeed rfl, rfl⟩

/-- **C5.** Merging a usage record adds its prompt/completion/total token
counts to that model's entry additively and leaves every other model's
entry unchanged; with no precomputed cost, the cost is derived by substring
match on the model identifier (low-cost tier 0.15/0.60 USD per million
prompt/completion tokens, high-capability tier 10.0/30.0), and both the
per-model cost and the grand-total cost accumulate additively. -/
theorem c5_usage_merge (s : UsageStats) (u : UsageData) (hnc : u.cost = none) :
    getStats (updateUsage s u) u.model =
      some { prompt := ((getStats s u.model).getD freshStats).prompt + u.prompt_tokens
             completion := ((getStats s u.model).getD freshStats).completion + u.completion_tokens
             total := ((getStats s u.model).getD freshStats).total + u.total_tokens
             cost := ((getStats s u.model).getD freshStats).cost + effCost u } ∧
    (updateUsage s u).total_cost = s.total_cost + effCost u ∧
    (∀ m, m ≠ u.model → getStats (updateUsage s u) m = getStats s m) ∧
    (pyContains u.model "gpt-5-mini" = true →
      effCost u = u.prompt_tokens * ((0.15 : Rat) / 1000000) +
        u.completion_tokens * ((0.6 : Rat) / 1000000)) ∧
    (pyContains u.model "gpt-5-mini" = false → pyContains u.model "gpt-5.2" = true →
      effCost u = u.prompt_tokens * ((10.0 : Rat) / 1000000) +
        u.completion_tokens * ((30.0 : Rat) / 1000000)) := by
  refine ⟨getStats_updateUsage_self s u, rfl, ?_, ?_, ?_⟩
  · intro m hm
    exact getStats_updateUsage_other s u m hm
  · intro hm
    exact effCost_mini u hnc hm
  · intro hm hh
    exact effCost_highTier u hnc hm hh

theorem c5_usage_merge_witness :
    witUsage.cost = none ∧
    ((updateUsage initStats witUsage).total_cost = initStats.total_cost + effCost witUsage ∧
      effCost witUsage = (27 : Rat) / 20) :=
  ⟨rfl,
   ⟨(c5_usage_merge initStats witUsage rfl).2.1, by
      rw [(c5_usage_merge initStats witUsage rfl).2.2.2.1 (by decide)]
      norm_num [witUsage]⟩⟩

/-- **C10.** Ledger invariant: at initialization and after every
`_update_usage` call, the grand-total cost equals the sum of the per-model
accumulated costs — each merge adds the same amount to exactly one
per-model entry and to the grand total. -/
theorem c10_ledger_invariant :
    ledgerInv initStats ∧
    ∀ (s : UsageStats) (u : UsageData), ledgerInv s → ledgerInv (updateUsage s u) := by
  constructor
  · simp [ledgerInv, initStats, modelCostSum, freshStats]
  · intro s u h
    unfold ledgerInv at h ⊢
    have hsum := modelCostSum_setStats s.models u.model
      { prompt := ((getStats s u.model).getD freshStats).prompt + u.prompt_tokens
        completion := ((getStats s u.model).getD freshStats).completion + u.completion_tokens
        total := ((getStats s u.model).getD freshStats).total + u.total_tokens
        cost := ((getStats s u.model).getD freshStats).cost + effCost u }
    unfold updateUsage
    simp only []
    unfold getStats at hsum ⊢
    simp only [] at hsum ⊢
    linarith [hsum]

theorem c10_ledger_invariant_witness :
    ledgerInv (updateUsage initStats witUsage) :=
  c10_ledger_invariant.2 initStats witUsage
    (by unfold ledgerInv; norm_num [initStats, modelCostSum, freshStats])

end XAgent
